import Mathlib

/-!
Shallow embedding of the two translation units of the 3d-spatial-eye
firmware: `src/main.cpp` (ESP32-S3 servo + VL53L1X time-of-flight
controller) and `src/stepper.cpp` (28BYJ-48 stepper sketch).

Hardware effects are modelled as explicit data: a call to
`myServo.write(pos)` becomes an entry in a list of commanded positions, a
call to `digitalWrite(pin, level)` becomes a `(pin, level)` pair in a
trace, and lines printed to `Serial` become `SerialMsg` values.  The
VL53L1X sensor is modelled as an environment delivering, for each poll, a
`dataReady` flag and the value `vl53.distance()` would return (the source
uses `-1` as the failure sentinel).  C `int` values are modelled as `Int`;
the loop counter of `stepMotor`, which only takes values `0 ≤ step`, is
modelled as `Nat`.
-/

namespace SpatialEye

/-! ## Stepper sketch (`src/stepper.cpp`) -/

/-- Stepper motor pin `IN1` (GPIO 25). -/
def IN1 : Nat := 25

/-- Stepper motor pin `IN2` (GPIO 26). -/
def IN2 : Nat := 26

/-- Stepper motor pin `IN3` (GPIO 27). -/
def IN3 : Nat := 27

/-- Stepper motor pin `IN4` (GPIO 14). -/
def IN4 : Nat := 14

/-- The Arduino `LOW` level. -/
def LOW : Nat := 0

/-- Half-step sequence for the 28BYJ-48: the 8-entry table `seq`. -/
def seq : List (List Nat) :=
  [[1,0,0,0], [1,1,0,0], [0,1,0,0], [0,1,1,0],
   [0,0,1,0], [0,0,1,1], [0,0,0,1], [1,0,0,1]]

/-- `STEPS_PER_REVOLUTION = 4096`. -/
def STEPS_PER_REVOLUTION : Int := 4096

/-- `STEPS_PER_DEGREE = STEPS_PER_REVOLUTION / 360` (C integer division). -/
def STEPS_PER_DEGREE : Int := STEPS_PER_REVOLUTION / 360

/-- `TOTAL_DEGREES = 360`. -/
def TOTAL_DEGREES : Int := 360

/-- The index computation inside `stepMotor`'s loop:
`idx = step & 7` when clockwise, `idx = (8 - (step & 7)) & 7` otherwise.
The loop variable `step` is always non-negative. -/
def stepIdx (step : Nat) (clockwise : Bool) : Nat :=
  if clockwise then step &&& 7 else (8 - (step &&& 7)) &&& 7

/-- The four `digitalWrite` calls issued in loop iteration `step` of
`stepMotor`: pins `IN1..IN4` receive row `seq[idx]`. -/
def stepWritesAt (step : Nat) (clockwise : Bool) : List (Nat × Nat) :=
  [(IN1, (seq.getD (stepIdx step clockwise) []).getD 0 0),
   (IN2, (seq.getD (stepIdx step clockwise) []).getD 1 0),
   (IN3, (seq.getD (stepIdx step clockwise) []).getD 2 0),
   (IN4, (seq.getD (stepIdx step clockwise) []).getD 3 0)]

/-- The `digitalWrite` trace of `stepMotor`'s `for` loop, which runs
`step = 0, 1, ..., n - 1` where `n = abs(steps)`. -/
def stepLoopWrites (n : Nat) (clockwise : Bool) : List (Nat × Nat) :=
  (List.range n).flatMap (fun step => stepWritesAt step clockwise)

/-- `stepMotor(steps, clockwise)`: the full `digitalWrite` trace — the loop
runs `abs(steps)` iterations, then all four coils are written `LOW`. -/
def stepMotor (steps : Int) (clockwise : Bool) : List (Nat × Nat) :=
  stepLoopWrites steps.natAbs clockwise ++
    [(IN1, LOW), (IN2, LOW), (IN3, LOW), (IN4, LOW)]

/-- The sequence of half-step-table indices used by a single call
`stepMotor(steps, clockwise)`, in loop order. -/
def idxSeq (steps : Int) (clockwise : Bool) : List Nat :=
  (List.range steps.natAbs).map (fun step => stepIdx step clockwise)

/-- The number of motor steps a call `stepMotor(steps, clockwise)` executes,
read off its loop trace: each loop iteration writes the four coil pins. -/
def motorStepCount (steps : Int) (clockwise : Bool) : Nat :=
  (stepLoopWrites steps.natAbs clockwise).length / 4

/-- `stepsToMove` as computed in `moveToDegree`:
`int stepsToMove = degrees * STEPS_PER_DEGREE;`. -/
def stepsToMove (degrees : Int) : Int := degrees * STEPS_PER_DEGREE

/-- `moveToDegree(degrees)` commands `stepMotor(stepsToMove, true)`. -/
def moveToDegree (degrees : Int) : List (Nat × Nat) :=
  stepMotor (stepsToMove degrees) true

/-- The two position-tracking globals of the stepper sketch. -/
structure StepperState where
  currentDegree : Int
  targetDegree : Int
deriving DecidableEq

/-- State after `setup()` of the stepper sketch:
`currentDegree = 0; targetDegree = 0;`. -/
def stepperInit : StepperState := ⟨0, 0⟩

/-- One iteration of the stepper sketch's `loop()` restricted to its degree
state: `targetDegree++`, the one-degree move, `currentDegree = targetDegree`,
then the reset of both globals when `currentDegree >= TOTAL_DEGREES`. -/
def stepperLoopIter (s : StepperState) : StepperState :=
  let t := s.targetDegree + 1
  let c := t
  if c ≥ TOTAL_DEGREES then ⟨0, 0⟩ else ⟨c, t⟩

/-! ## Servo + TOF controller (`src/main.cpp`) -/

/-- `minDegree = 0`. -/
def minDegree : Int := 0

/-- `maxDegree = 180`. -/
def maxDegree : Int := 180

/-- One VL53L1X poll outcome: the `vl53.dataReady()` flag and the value
`vl53.distance()` would return (the source treats `-1` as failure). -/
structure TOFReading where
  dataReady : Bool
  dist : Int
deriving DecidableEq

/-- Lines printed to `Serial`, abstracted from their exact text. -/
inductive SerialMsg where
  | startBanner
  | sensorNotFound
  | sensorInitOk
  | rangingFailed
  | rangingStarted
  | readyBanner
  | servoAt (pos : Int)
  | tofReadFailed
  | distanceLine (d : Int)
deriving DecidableEq

/-- `readTOFSensor()`: given this poll's sensor outcome and the current value
of the global `distance`, returns the new `distance` and the printed lines.
When `dataReady()` is false nothing happens; otherwise `distance` is
overwritten with `vl53.distance()` and either the failure line or the
distance line is printed. -/
def readTOFSensor (r : TOFReading) (distance : Int) : Int × List SerialMsg :=
  if r.dataReady then
    (r.dist,
     if r.dist = -1 then [SerialMsg.tofReadFailed]
     else [SerialMsg.distanceLine r.dist])
  else
    (distance, [])

/-- The ascending branch of `smoothMoveServoWithTOF`
(`for (int pos = startPos; pos <= endPos; pos++)`): the positions passed to
`myServo.write`, in order. -/
def sweepUp (pos endPos : Int) : List Int :=
  if pos ≤ endPos then pos :: sweepUp (pos + 1) endPos else []
termination_by (endPos + 1 - pos).toNat
decreasing_by
  simp_wf
  omega

/-- The descending branch of `smoothMoveServoWithTOF`
(`for (int pos = startPos; pos >= endPos; pos--)`). -/
def sweepDown (pos endPos : Int) : List Int :=
  if pos ≥ endPos then pos :: sweepDown (pos - 1) endPos else []
termination_by (pos + 1 - endPos).toNat
decreasing_by
  simp_wf
  omega

/-- The positions `smoothMoveServoWithTOF(startPos, endPos)` writes to the
servo: the ascending loop when `startPos < endPos`, else the descending
loop. -/
def servoPositions (startPos endPos : Int) : List Int :=
  if startPos < endPos then sweepUp startPos endPos
  else sweepDown startPos endPos

/-- Runs the per-position loop body over a list of positions: write the
servo, print the position line, poll the sensor (the `k`-th poll consumes
`env k`), threading the global `distance`.  Returns the servo write list,
the final `distance`, and the serial log. -/
def runSweep (positions : List Int) (env : Nat → TOFReading) (k : Nat)
    (distance : Int) : List Int × Int × List SerialMsg :=
  match positions with
  | [] => ([], distance, [])
  | p :: rest =>
      let r := readTOFSensor (env k) distance
      let q := runSweep rest env (k + 1) r.1
      (p :: q.1, q.2.1, (SerialMsg.servoAt p :: r.2) ++ q.2.2)

/-- `smoothMoveServoWithTOF(startPos, endPos)` under sensor environment
`env`, starting from global `distance`: returns the servo write list, the
final `distance`, and the serial log. -/
def smoothMoveServoWithTOF (startPos endPos : Int) (env : Nat → TOFReading)
    (distance : Int) : List Int × Int × List SerialMsg :=
  runSweep (servoPositions startPos endPos) env 0 distance

/-- The outcomes of the two guarded initializations in `setup()`. -/
structure SetupEnv where
  beginOk : Bool
  startRangingOk : Bool
deriving DecidableEq

/-- The observable result of `setup()`: whether one of the two
`while (1) delay(10);` loops was entered (so `setup` never returns), the
serial lines printed, and the servo positions commanded. -/
structure SetupResult where
  halted : Bool
  serialLines : List SerialMsg
  servoWrites : List Int
deriving DecidableEq

/-- `setup()` of `src/main.cpp`: `vl53.begin` guard, then `vl53.startRanging`
guard, then servo attach and `myServo.write(0)`. -/
def setup (e : SetupEnv) : SetupResult :=
  if !e.beginOk then
    { halted := true
      serialLines := [SerialMsg.startBanner, SerialMsg.sensorNotFound]
      servoWrites := [] }
  else if !e.startRangingOk then
    { halted := true
      serialLines := [SerialMsg.startBanner, SerialMsg.sensorInitOk,
                      SerialMsg.rangingFailed]
      servoWrites := [] }
  else
    { halted := false
      serialLines := [SerialMsg.startBanner, SerialMsg.sensorInitOk,
                      SerialMsg.rangingStarted, SerialMsg.readyBanner]
      servoWrites := [0] }

/-- The Arduino runtime calls `loop()` only after `setup()` returns. -/
def loopReached (e : SetupEnv) : Bool := !(setup e).halted

/-! ## Lemmas about the servo sweep -/

theorem sweepUp_head (s e : Int) (h : s ≤ e) : (sweepUp s e).head? = some s := by
  rw [sweepUp]
  simp [h]

theorem sweepDown_head (s e : Int) (h : e ≤ s) : (sweepDown s e).head? = some s := by
  rw [sweepDown]
  simp [show s ≥ e from h]

theorem sweepUp_count (s e x : Int) :
    (sweepUp s e).count x = if s ≤ x ∧ x ≤ e then 1 else 0 := by
  rw [sweepUp]
  split
  · rename_i h
    rw [List.count_cons, sweepUp_count (s + 1) e x]
    simp only [beq_iff_eq]
    split_ifs <;> omega
  · rename_i h
    rw [List.count_nil]
    split_ifs <;> omega
termination_by (e + 1 - s).toNat
decreasing_by
  simp_wf
  omega

theorem sweepDown_count (s e x : Int) :
    (sweepDown s e).count x = if e ≤ x ∧ x ≤ s then 1 else 0 := by
  rw [sweepDown]
  split
  · rename_i h
    rw [List.count_cons, sweepDown_count (s - 1) e x]
    simp only [beq_iff_eq]
    split_ifs <;> omega
  · rename_i h
    rw [List.count_nil]
    split_ifs <;> omega
termination_by (s + 1 - e).toNat
decreasing_by
  simp_wf
  omega

theorem sweepUp_chain (s e : Int) :
    List.Chain' (fun a b => b = a + 1) (sweepUp s e) := by
  rw [sweepUp]
  split
  · rename_i h
    rw [List.chain'_cons']
    refine ⟨?_, sweepUp_chain (s + 1) e⟩
    intro y hy
    by_cases h2 : s + 1 ≤ e
    · rw [sweepUp_head (s + 1) e h2] at hy
      simp at hy
      omega
    · have hnil : sweepUp (s + 1) e = [] := by
        rw [sweepUp, if_neg h2]
      rw [hnil] at hy
      simp at hy
  · exact List.chain'_nil
termination_by (e + 1 - s).toNat
decreasing_by
  simp_wf
  omega

theorem sweepDown_chain (s e : Int) :
    List.Chain' (fun a b => b = a - 1) (sweepDown s e) := by
  rw [sweepDown]
  split
  · rename_i h
    rw [List.chain'_cons']
    refine ⟨?_, sweepDown_chain (s - 1) e⟩
    intro y hy
    by_cases h2 : e ≤ s - 1
    · rw [sweepDown_head (s - 1) e h2] at hy
      simp at hy
      omega
    · have hnil : sweepDown (s - 1) e = [] := by
        rw [sweepDown, if_neg (by omega : ¬ s - 1 ≥ e)]
      rw [hnil] at hy
      simp at hy
  · exact List.chain'_nil
termination_by (s + 1 - e).toNat
decreasing_by
  simp_wf
  omega

theorem runSweep_fst (positions : List Int) (env : Nat → TOFReading) (k : Nat)
    (distance : Int) : (runSweep positions env k distance).1 = positions := by
  induction positions generalizing k distance with
  | nil => rfl
  | cons p rest ih => simp [runSweep, ih]

/-! ## Claim theorems: servo controller -/

/-- C1: `smoothMoveServoWithTOF(A, B)` commands the servo to every integer
angle in the closed interval between `A` and `B` exactly once, starting at
`A`, in monotonic order: ascending steps of `+1` when `A < B`, descending
steps of `-1` otherwise (including the degenerate case `A = B`). -/
theorem servo_sweep_visits_each_angle_once_monotonic (A B : Int)
    (env : Nat → TOFReading) (d : Int) :
    ((smoothMoveServoWithTOF A B env d).1.head? = some A)
    ∧ (∀ x : Int, (smoothMoveServoWithTOF A B env d).1.count x
        = if min A B ≤ x ∧ x ≤ max A B then 1 else 0)
    ∧ List.Chain' (fun a b => b = a + if A < B then 1 else -1)
        (smoothMoveServoWithTOF A B env d).1 := by
  have hw : (smoothMoveServoWithTOF A B env d).1 = servoPositions A B :=
    runSweep_fst _ _ _ _
  rw [hw, servoPositions]
  by_cases hAB : A < B
  · rw [if_pos hAB]
    refine ⟨sweepUp_head A B (le_of_lt hAB), ?_, ?_⟩
    · intro x
      rw [sweepUp_count, min_eq_left (le_of_lt hAB), max_eq_right (le_of_lt hAB)]
    · simp only [if_pos hAB]
      exact sweepUp_chain A B
  · have hBA : B ≤ A := le_of_not_lt hAB
    rw [if_neg hAB]
    refine ⟨sweepDown_head A B hBA, ?_, ?_⟩
    · intro x
      rw [sweepDown_count, min_eq_right hBA, max_eq_left hBA]
    · simp only [if_neg hAB]
      have := sweepDown_chain A B
      simpa [sub_eq_add_neg] using this

/-- C6: the servo write sequence of `smoothMoveServoWithTOF(A, B)` does not
depend on the sensor environment or on the prior `distance` value; a failed
reading (`-1` sentinel) only produces the failure log line. -/
theorem servo_writes_independent_of_sensor (A B : Int)
    (env1 env2 : Nat → TOFReading) (d1 d2 : Int) :
    (smoothMoveServoWithTOF A B env1 d1).1 = (smoothMoveServoWithTOF A B env2 d2).1
    ∧ (∀ d : Int, (readTOFSensor ⟨true, -1⟩ d).2 = [SerialMsg.tofReadFailed]) := by
  refine ⟨?_, fun d => by simp [readTOFSensor]⟩
  rw [show (smoothMoveServoWithTOF A B env1 d1).1 = servoPositions A B from
        runSweep_fst _ _ _ _,
      show (smoothMoveServoWithTOF A B env2 d2).1 = servoPositions A B from
        runSweep_fst _ _ _ _]

/-! ## Lemmas about the stepper motor -/

theorem and_seven_eq_mod (n : Nat) : n &&& 7 = n % 8 := by
  have h := Nat.and_pow_two_sub_one_eq_mod n 3
  norm_num at h
  exact h

theorem stepIdx_succ (step : Nat) (clockwise : Bool) :
    stepIdx (step + 1) clockwise
      = (stepIdx step clockwise + if clockwise then 1 else 7) % 8 := by
  cases clockwise <;> simp [stepIdx, and_seven_eq_mod] <;> omega

theorem stepLoopWrites_succ (m : Nat) (clockwise : Bool) :
    stepLoopWrites (m + 1) clockwise
      = stepLoopWrites m clockwise ++ stepWritesAt m clockwise := by
  rw [stepLoopWrites, stepLoopWrites, List.range_succ, List.flatMap_append]
  simp

theorem stepLoopWrites_length (n : Nat) (clockwise : Bool) :
    (stepLoopWrites n clockwise).length = 4 * n := by
  induction n with
  | zero => rfl
  | succ m ih =>
      have h4 : (stepWritesAt m clockwise).length = 4 := rfl
      rw [stepLoopWrites_succ, List.length_append, ih, h4]
      omega

/-! ## Claim theorems: stepper motor -/

/-- C2: in both directions the index computed by `stepMotor` is `step`
taken modulo 8 (reflected through `8 - ·` counter-clockwise), so every
lookup into the 8-entry half-step table `seq` is in bounds. -/
theorem stepMotor_index_in_bounds_mod8 (step : Nat) (clockwise : Bool) :
    stepIdx step clockwise < seq.length
    ∧ stepIdx step true = step % 8
    ∧ stepIdx step false = (8 - step % 8) % 8 := by
  have hs : seq.length = 8 := rfl
  refine ⟨?_, ?_, ?_⟩
  · rw [hs]
    cases clockwise <;> simp [stepIdx, and_seven_eq_mod] <;> omega
  · simp [stepIdx, and_seven_eq_mod]
  · simp [stepIdx, and_seven_eq_mod]

/-- C7: after any call `stepMotor(steps, clockwise)`, the last write to each
of the four coil pins `IN1..IN4` is `LOW`. -/
theorem stepMotor_deenergizes_coils (steps : Int) (clockwise : Bool) :
    ((stepMotor steps clockwise).filter (fun w => w.1 == IN1)).getLast? = some (IN1, LOW)
    ∧ ((stepMotor steps clockwise).filter (fun w => w.1 == IN2)).getLast? = some (IN2, LOW)
    ∧ ((stepMotor steps clockwise).filter (fun w => w.1 == IN3)).getLast? = some (IN3, LOW)
    ∧ ((stepMotor steps clockwise).filter (fun w => w.1 == IN4)).getLast? = some (IN4, LOW) := by
  have h : ∀ (p : Nat × Nat → Bool) (x : Nat × Nat),
      List.filter p [(IN1, LOW), (IN2, LOW), (IN3, LOW), (IN4, LOW)] = [x] →
      ((stepMotor steps clockwise).filter p).getLast? = some x := by
    intro p x hfil
    rw [stepMotor, List.filter_append, hfil, List.getLast?_concat]
  exact ⟨h _ _ (by decide), h _ _ (by decide), h _ _ (by decide), h _ _ (by decide)⟩

/-- C8: within one call to `stepMotor`, consecutive table indices advance by
`+1` modulo 8 when clockwise and by `-1` (i.e. `+7`) modulo 8 otherwise. -/
theorem stepMotor_index_advances_one_slot (steps : Int) (clockwise : Bool) :
    (∀ step : Nat, stepIdx (step + 1) clockwise
        = (stepIdx step clockwise + if clockwise then 1 else 7) % 8)
    ∧ List.Chain' (fun a b => b = (a + if clockwise then 1 else 7) % 8)
        (idxSeq steps clockwise) := by
  refine ⟨fun step => stepIdx_succ step clockwise, ?_⟩
  rw [idxSeq, List.chain'_map]
  cases hn : steps.natAbs with
  | zero => simp
  | succ m =>
      rw [List.chain'_range_succ]
      intro i _
      exact stepIdx_succ i clockwise

/-- C9: `stepMotor(steps, clockwise)` executes exactly `abs(steps)` motor
steps, and its whole write trace — hence the direction of coil-sequence
traversal — is unchanged when the sign of `steps` flips. -/
theorem stepMotor_executes_natAbs_steps (steps : Int) (clockwise : Bool) :
    motorStepCount steps clockwise = steps.natAbs
    ∧ stepMotor steps clockwise = stepMotor (steps.natAbs : Int) clockwise
    ∧ stepMotor steps clockwise = stepMotor (-steps) clockwise := by
  refine ⟨?_, ?_, ?_⟩
  · rw [motorStepCount, stepLoopWrites_length]
    omega
  · rw [stepMotor, stepMotor, Int.natAbs_ofNat]
  · rw [stepMotor, stepMotor, Int.natAbs_neg]

/-- C4: `moveToDegree` converts degrees to steps by the exact integer
multiplication `degrees * STEPS_PER_DEGREE`, where `STEPS_PER_DEGREE` is the
integer quotient `4096 / 360 = 11`; the product is passed to `stepMotor`
unchanged. -/
theorem degree_to_step_exact_multiplication (d : Int) :
    stepsToMove d = d * STEPS_PER_DEGREE
    ∧ STEPS_PER_DEGREE = (4096 : Int) / 360
    ∧ STEPS_PER_DEGREE = 11
    ∧ moveToDegree d = stepMotor (d * STEPS_PER_DEGREE) true := by
  exact ⟨rfl, rfl, by decide, rfl⟩

/-- `stepperLoopIter` in closed form. -/
theorem stepperLoopIter_spec (s : StepperState) :
    stepperLoopIter s = if s.targetDegree + 1 ≥ 360 then ⟨0, 0⟩
      else ⟨s.targetDegree + 1, s.targetDegree + 1⟩ := rfl

theorem degreeInv_iter (n : Nat) :
    (stepperLoopIter^[n] stepperInit).currentDegree
        = (stepperLoopIter^[n] stepperInit).targetDegree
    ∧ 0 ≤ (stepperLoopIter^[n] stepperInit).currentDegree
    ∧ (stepperLoopIter^[n] stepperInit).currentDegree < 360 := by
  induction n with
  | zero => exact ⟨rfl, by decide, by decide⟩
  | succ m ih =>
      rw [Function.iterate_succ_apply', stepperLoopIter_spec]
      obtain ⟨h1, h2, h3⟩ := ih
      by_cases hc : (stepperLoopIter^[m] stepperInit).targetDegree + 1 ≥ 360
      · rw [if_pos hc]
        exact ⟨rfl, by decide, by decide⟩
      · rw [if_neg hc]
        refine ⟨rfl, ?_, ?_⟩
        · show 0 ≤ (stepperLoopIter^[m] stepperInit).targetDegree + 1
          omega
        · show (stepperLoopIter^[m] stepperInit).targetDegree + 1 < 360
          omega

/-- C3: starting from the reset state, after every iteration of the stepper
sketch's `loop()` the value of `currentDegree` lies in `0..359`; the
iteration that reaches 360 resets both degree counters to zero. -/
theorem stepper_currentDegree_range_invariant (n : Nat) :
    (0 ≤ (stepperLoopIter^[n] stepperInit).currentDegree
      ∧ (stepperLoopIter^[n] stepperInit).currentDegree < 360)
    ∧ stepperLoopIter ⟨359, 359⟩ = stepperInit := by
  exact ⟨⟨(degreeInv_iter n).2.1, (degreeInv_iter n).2.2⟩, by decide⟩

/-- C5: `setup()` halts (never reaching `loop()`, with no servo command)
exactly when `vl53.begin` or `vl53.startRanging` fails, and each of the two
failure paths prints its error line before the infinite idle wait. -/
theorem setup_two_failure_paths_halt (b r : Bool) :
    ((setup ⟨b, r⟩).halted = (!b || !r))
    ∧ ((setup ⟨b, r⟩).servoWrites = if (!b || !r) then [] else [0])
    ∧ (loopReached ⟨b, r⟩ = (b && r))
    ∧ ((setup ⟨false, r⟩).serialLines = [SerialMsg.startBanner, SerialMsg.sensorNotFound])
    ∧ ((setup ⟨true, false⟩).serialLines
        = [SerialMsg.startBanner, SerialMsg.sensorInitOk, SerialMsg.rangingFailed]) := by
  cases b <;> cases r <;> simp [setup, loopReached]

/-- C10: when the sensor is not ready, `readTOFSensor` leaves the global
`distance` unchanged and prints nothing; when it is ready but the reading
fails, `distance` is overwritten with the `-1` sentinel (the last successful
reading is not retained) and the failure line is printed. -/
theorem readTOFSensor_not_ready_and_failure_behavior (r d : Int) :
    readTOFSensor ⟨false, r⟩ d = (d, [])
    ∧ readTOFSensor ⟨true, -1⟩ d = (-1, [SerialMsg.tofReadFailed]) := by
  constructor
  · rfl
  · simp [readTOFSensor]

end SpatialEye
